import Mathlib

/-!
Verification development for the `pkgsend` manifest-publication pipeline
(`src/publish.py` of the pkg5 repository).

The Python source is shallowly embedded: every Python function that the
claims touch is translated into an executable Lean definition.  External
collaborators (the transport layer, the transaction server, the manifest
grammar parser, `fnmatch`, `os.stat`) are modelled at their interface
boundary as explicit oracle parameters; the calls the Python code issues
to the external transaction object are recorded in an event trace so that
properties about `open`/`add`/`close(abandon=...)` sequences can be
stated.  Python exceptions are modelled with explicit `Except`/result
constructors, including the `NameError` raised by evaluating an undefined
identifier.
-/

namespace Pkgsend

/-- Exit codes from `pkg.client.pkgdefs` (external constants imported by
`publish.py`). -/
def EXIT_OK : Nat := 0

def EXIT_OOPS : Nat := 1

def EXIT_BADOPT : Nat := 2

def EXIT_PARTIAL : Nat := 3

def EXIT_FATAL : Nat := 99

/-- `publish.py` line 64: `nopub_actions = ["unknown"]`. -/
def nopub_actions : List String := ["unknown"]

/-- `publish.py` lines 68-75: attribute names stripped from input
manifests for `publish`; they are re-calculated during publication. -/
def strip_attrs : List String :=
  ["elfarch", "elfbits", "elfhash", "pkg.content-hash", "pkg.csize", "pkg.size"]

/-- An action's attribute mapping (`a.attrs`), a Python dict from
attribute name to value, modelled as an association list whose keys are
unique in well-formed inputs.  Order is insertion order, as in Python. -/
abbrev Attrs := List (String × String)

/-- Dict lookup `m[k]` returning `none` where Python raises `KeyError`. -/
def lookupAttr (m : Attrs) (k : String) : Option String :=
  match m with
  | [] => none
  | kv :: rest => if kv.1 = k then some kv.2 else lookupAttr rest k

/-- `m.pop(k, None)`: remove the key `k` from the mapping. -/
def popAttr (k : String) (m : Attrs) : Attrs :=
  m.filter (fun kv => kv.1 ≠ k)

/-- Dict assignment `m[k] = v`: overwrite in place if present, else
append. -/
def setAttr (k v : String) (m : Attrs) : Attrs :=
  if (lookupAttr m k).isSome then
    m.map (fun kv => if kv.1 = k then (k, v) else kv)
  else
    m ++ [(k, v)]

/-- A parsed manifest action (`pkg.actions`): name, attribute dict, the
payload hash and the `has_payload` class flag.  The parser itself is an
external collaborator; actions enter the pipeline already parsed. -/
structure Action where
  name : String
  attrs : Attrs
  hash : String
  has_payload : Bool
deriving DecidableEq, Repr

/-- `publish.py` lines 495-496: `for attr in strip_attrs:
a.attrs.pop(attr, None)` — the derived-attribute strip step. -/
def stripAttrsApply (m : Attrs) : Attrs :=
  strip_attrs.foldl (fun acc k => popAttr k acc) m

/-! ## Provenance map (SourceAggregator)

`publish.py` lines 408-421 (`trans_publish`) and 566-579
(`trans_include`) accumulate, for each input source, a tuple
`(linecounter, linecounter + linecnt)` of starting and ending global
line counts; lines 429-437 / 585-594 then scan those tuples for the
first one whose half-open range `(start, end]` contains the 1-based
line number reported by the parser, and fall back to `"???"` when none
does. -/

/-- A source is its display name paired with its line count
(`len(data.splitlines())`); reading the bytes is external. -/
abbrev SourceSpec := String × Nat

/-- Build the `linecnts` list (paired here with each source's name,
as the Python code pairs `linecnts[i]` with `filelist[i][0]`), starting
from running total `acc`. -/
def buildLinecnts (acc : Nat) : List SourceSpec → List ((Nat × Nat) × String)
  | [] => []
  | (name, cnt) :: rest => ((acc, acc + cnt), name) :: buildLinecnts (acc + cnt) rest

/-- Result of attributing a parser error line: either a source name with
a 1-based local line, or the unknown marker (the code sets both
`filename` and `lineno` to the string `"???"`). -/
inductive LineAttr where
  | found (filename : String) (lineno : Nat)
  | unknown
deriving DecidableEq, Repr

/-- `publish.py` lines 430-437: `for i, tup in enumerate(linecnts): if
lineno > tup[0] and lineno <= tup[1]: filename = filelist[i][0]; lineno
-= tup[0]; break` with the for-else assigning `"???"`. -/
def findLine (lineno : Nat) : List ((Nat × Nat) × String) → LineAttr
  | [] => .unknown
  | (rng, name) :: rest =>
    if rng.1 < lineno ∧ lineno ≤ rng.2 then .found name (lineno - rng.1)
    else findLine lineno rest

/-- Total number of lines of a source list. -/
def totalLines (srcs : List SourceSpec) : Nat :=
  (srcs.map Prod.snd).sum

/-! ## SolarisBundleVisitor (BundleValidator)

`publish.py` lines 130-178.  Python `set.add` is modelled by
`setAdd` on a duplicate-free list, which keeps a new element only when
it is not already present — so "recorded once, deduplicated by text" is
observable as a list count. -/

/-- `set.add(x)`: keep `x` only if not already present. -/
def setAdd (s : List String) (x : String) : List String :=
  if x ∈ s then s else s ++ [x]

/-- A legacy SVR4 bundle, at the interface the visitor consumes:
`bundle.pkg` truthiness, `bundle.pkgname`, iteration over its actions,
the `class_actions_dir` path→class mapping, and `bundle.scripts`.
Bundle construction (`pkg.bundle.make_bundle`) is external. -/
structure Bundle where
  pkg : Bool
  pkgname : String
  actions : List Action
  class_actions_dir : List (String × String)
  scripts : List String
deriving Repr

/-- Class lookup in `bundle.class_actions_dir`. -/
def lookupClass (m : List (String × String)) (k : String) : Option String :=
  match m with
  | [] => none
  | kv :: rest => if kv.1 = k then some kv.2 else lookupClass rest k

/-- The deduplicated multiple-SVR4-packages warning text
(`publish.py` lines 147-153). -/
def multiBundleWarning : String :=
  "WARNING: Several SVR4 packages detected. Multiple pkg.summary and pkg.description attributes may have been generated."

/-- Class-action-script error text (`publish.py` lines 162-170). -/
def classActionError (pkgname path classname : String) : String :=
  "ERROR: class action script used in " ++ pkgname ++ ": " ++ path ++
    " belongs to " ++ classname ++ " class"

/-- Embedded-script error text (`publish.py` lines 171-176). -/
def scriptError (pkgname script : String) : String :=
  "ERROR: script present in " ++ pkgname ++ ": " ++ script

/-- Visitor state (`publish.py` lines 133-138). -/
structure SolarisBundleVisitor where
  known_classes : List String
  errors : List String
  warnings : List String
  visited : Bool
deriving DecidableEq, Repr

/-- `SolarisBundleVisitor.__init__`. -/
def SolarisBundleVisitor.init : SolarisBundleVisitor :=
  { known_classes := ["none", "manifest"]
    errors := []
    warnings := []
    visited := false }

/-- The per-action body of the visit loop (`publish.py` lines
155-170): skip actions without a `path` attribute; record a class
error when the path is classified under a truthy class outside
`known_classes`. -/
def visitAction (pkgname : String) (cad : List (String × String))
    (v : SolarisBundleVisitor) (a : Action) : SolarisBundleVisitor :=
  match lookupAttr a.attrs "path" with
  | none => v
  | some path =>
    match lookupClass cad path with
    | none => v
    | some svr4_class =>
      if svr4_class ≠ "" ∧ svr4_class ∉ v.known_classes then
        { v with errors := setAdd v.errors (classActionError pkgname path svr4_class) }
      else v

/-- `SolarisBundleVisitor.visit` (`publish.py` lines 140-178). -/
def SolarisBundleVisitor.visit (v : SolarisBundleVisitor) (b : Bundle) :
    SolarisBundleVisitor :=
  if !b.pkg then v
  else
    let v1 := if v.visited then
        { v with warnings := setAdd v.warnings multiBundleWarning }
      else v
    let v2 := b.actions.foldl (visitAction b.pkgname b.class_actions_dir) v1
    let v3 := b.scripts.foldl
      (fun acc s => { acc with errors := setAdd acc.errors (scriptError b.pkgname s) }) v2
    { v3 with visited := true }

/-- Visiting a whole session's bundles in order. -/
def visitAll (bs : List Bundle) : SolarisBundleVisitor :=
  bs.foldl SolarisBundleVisitor.visit SolarisBundleVisitor.init

/-- Number of bundles carrying a package identity. -/
def countPkg (bs : List Bundle) : Nat :=
  (bs.filter (fun b => b.pkg)).length

/-! ## gen_actions (`publish.py` lines 635-673)

Per-action transform applied to every action a bundle yields, before
`trans_import` / `trans_generate` consume the `(action, err)` pairs.
`fnmatch.fnmatch` and `os.path.basename` are Python stdlib; basename is
modelled concretely (last `/`-separated component), fnmatch as an
oracle parameter. -/

/-- `os.path.basename`: the component after the last slash. -/
def basenameOf (path : String) : String :=
  (path.splitOn "/").getLastD ""

/-- The `for pattern ... break / else` scan in `gen_actions` lines
656-660: `True` when some pattern fnmatches the basename. -/
def matchesAny (fnmatchFn : String → String → Bool) (patterns : List String)
    (basename : String) : Bool :=
  patterns.any (fun p => fnmatchFn basename p)

/-- `gen_actions` body for one action (`publish.py` lines 653-673):
for `file`/`dir` actions, pop the declared `timestamp` attribute unless
some timestamp pattern matches the path basename; when `minimal` (the
`generate` path), additionally pop `pkg.size`.  `none` models the
`KeyError` a `file`/`dir` action without a `path` attribute would
raise. -/
def genActionTransform (fnmatchFn : String → String → Bool)
    (timestamp_files : List String) (minimal : Bool) (a : Action) :
    Option Action :=
  let step2 := fun (x : Action) =>
    if minimal then { x with attrs := popAttr "pkg.size" x.attrs } else x
  if a.name = "file" ∨ a.name = "dir" then
    match lookupAttr a.attrs "path" with
    | none => none
    | some path =>
      let a1 :=
        if matchesAny fnmatchFn timestamp_files (basenameOf path) then a
        else { a with attrs := popAttr "timestamp" a.attrs }
      some (step2 a1)
  else some (step2 a)

/-- The `(action, action.name in nopub_actions)` pair `gen_actions`
yields (`publish.py` line 673). -/
def genActionPair (fnmatchFn : String → String → Bool)
    (timestamp_files : List String) (minimal : Bool) (a : Action) :
    Option (Action × Bool) :=
  (genActionTransform fnmatchFn timestamp_files minimal a).map
    (fun a2 => (a2, decide (a2.name ∈ nopub_actions)))

/-! ## Transaction event traces

The external transaction object (`pkg.publish.transaction.Transaction`)
is observed through the calls the embedded code issues to it.  Python
exceptions that escape a command function are modelled explicitly,
including the `NameError` that evaluating an undefined identifier
raises. -/

/-- One call observed by the external transaction endpoint. -/
inductive TxEvent where
  | openT
  | add (a : Action)
  | close (abandon : Bool)
deriving DecidableEq, Repr

/-- Count the `close` calls with the given abandon flag in a trace. -/
def countClose (abandon : Bool) (tr : List TxEvent) : Nat :=
  (tr.filter (fun e => e = TxEvent.close abandon)).length

/-- The actions of the `add` calls of a trace, in order. -/
def addedActions (tr : List TxEvent) : List Action :=
  tr.foldr (fun e acc => match e with | .add a => a :: acc | _ => acc) []

/-- A Python exception escaping an embedded function: `NameError`
(undefined identifier), `KeyError` (missing dict key), a failure raised
by `pkg.actions.set_action_data` (unresolved payload), a failure raised
by `t.add` (transport/transaction error). -/
inductive ExnKind where
  | nameError
  | keyError
  | resolveError
  | addError
deriving DecidableEq, Repr

/-! ## trans_add (`publish.py` lines 332-354) -/

/-- Side effects of `trans_add` other than transaction calls:
`setup_transport_and_pubs` and the `trans.Transaction(...)`
construction. -/
inductive SideEvent where
  | setupTransport
  | mkTransaction
  | addCall (a : Action)
deriving DecidableEq, Repr

/-- A command outcome: a returned exit code, or a `usage(...)` exit. -/
inductive CmdResult where
  | ret (code : Nat)
  | usageExit (code : Nat)
deriving DecidableEq, Repr

/-- `trans_add`: `trans_id?` is `$PKG_TRANS_ID` (absent → usage exit),
`action?` the result of `pkg.actions.internalizelist` on the arguments
(`none` models empty argument list → usage exit; parsing is external).
A disallowed action name is reported and returns `EXIT_OOPS` before
`setup_transport_and_pubs` or `trans.Transaction` run; otherwise the
transport is set up, the transaction constructed, and the action
added. -/
def trans_add_model (trans_id? : Option String) (action? : Option Action) :
    List SideEvent × CmdResult :=
  match trans_id? with
  | none => ([], .usageExit EXIT_BADOPT)
  | some _ =>
    match action? with
    | none => ([], .usageExit EXIT_BADOPT)
    | some action =>
      if action.name ∈ nopub_actions then ([], .ret EXIT_OOPS)
      else
        ([SideEvent.setupTransport, SideEvent.mkTransaction,
          SideEvent.addCall action], .ret EXIT_OK)

/-! ## trans_import (`publish.py` lines 676-740)

The loop consumes the `(action, err)` pairs `gen_actions` yields.  A
pair with `err = true` is reported and sets `abandon`; otherwise the
action is added only while `abandon` is still false.  After the loop,
any visitor errors force `abandon` and set the return code to
`EXIT_OOPS`; if `abandon`, `t.close(abandon=True)` is issued once.
`t.add` calls are recorded as events (their transport-level failure
behaviour is external and outside these claims). -/

structure ImportSt where
  adds : List Action
  reports : List String
  abandon : Bool
deriving Repr

/-- One iteration of the `for action, err in gen_actions(...)` loop
(`publish.py` lines 707-722). -/
def importStep (st : ImportSt) (p : Action × Bool) : ImportSt :=
  if p.2 then
    { st with
      reports := st.reports ++ ["invalid action for publication: " ++ p.1.name]
      abandon := true }
  else if !st.abandon then { st with adds := st.adds ++ [p.1] }
  else st

/-- `trans_import` after transaction construction: the add loop, the
visitor-error check and the conditional abandon (`publish.py` lines
704-740).  Returns the transaction trace, the reported rejection
messages, and the exit code. -/
def trans_import_model (pairs : List (Action × Bool))
    (visitorErrors : List String) : List TxEvent × List String × Nat :=
  let st := pairs.foldl importStep ⟨[], [], false⟩
  let ret := if !visitorErrors.isEmpty then EXIT_OOPS else EXIT_OK
  let abandon := st.abandon || !visitorErrors.isEmpty
  let tr := st.adds.map TxEvent.add ++ (if abandon then [TxEvent.close true] else [])
  (tr, st.reports, ret)

/-! ## trans_include (`publish.py` lines 531-632)

The action loop of `trans_include`: `set` actions naming the package
identity are skipped, payload-bearing actions are resolved through
`pkg.actions.set_action_data` (external, an oracle here), `file`
actions may receive a timestamp from the resolved path's mtime, then
disallowed names are reported (setting `invalid_action`) while all
other actions are added.  The function returns `EXIT_PARTIAL` when
`invalid_action` was set and `EXIT_OK` otherwise.  The Python local
`path` persists across loop iterations and is `NameError` when read
before any assignment; it is threaded explicitly. -/

structure IncCtx where
  fnmatchFn : String → String → Bool
  timestamp_files : List String
  resolve : Action → Except Unit String
  mtime : String → Nat

/-- `misc.time_to_timestamp` (external): render an mtime. -/
def timeToTimestamp (n : Nat) : String := toString n

/-- `a.name == "set" and a.attrs["name"] in ["pkg.fmri", "fmri"]`,
with the `KeyError` of a `set` action lacking a `name` attribute. -/
def setFmriTest (a : Action) : Except ExnKind Bool :=
  if a.name = "set" then
    match lookupAttr a.attrs "name" with
    | none => .error .keyError
    | some n => .ok (n = "pkg.fmri" ∨ n = "fmri")
  else .ok false

/-- Boolean form of the identity-`set`-action test, used to state
which actions the loops skip. -/
def isSetFmriB (a : Action) : Bool :=
  if a.name = "set" then
    match lookupAttr a.attrs "name" with
    | none => false
    | some n => decide (n = "pkg.fmri" ∨ n = "fmri")
  else false

/-- The `for pattern in timestamp_files` scan of `trans_include`
(lines 614-618): on the first fnmatch hit, produce the timestamp from
the resolved path's mtime (reading the never-assigned `path` local is
a `NameError`). -/
def incTsScan (ctx : IncCtx) (basename : String) (path? : Option String) :
    List String → Except ExnKind (Option String)
  | [] => .ok none
  | p :: ps =>
    if ctx.fnmatchFn basename p then
      match path? with
      | none => .error .nameError
      | some s => .ok (some (timeToTimestamp (ctx.mtime s)))
    else incTsScan ctx basename path? ps

/-- Outcome of the `trans_include` loop: a returned exit code, or an
escaping exception. -/
inductive IncResult where
  | ret (code : Nat)
  | exn (e : ExnKind)
deriving DecidableEq, Repr

/-- The `elif a.has_payload: path, bd = pkg.actions.set_action_data(...)`
step of `trans_include` (lines 610-611): resolve the payload or leave
the `path` local as it was. -/
def incResolve (ctx : IncCtx) (a : Action) (path? : Option String) :
    Except ExnKind (Option String) :=
  if a.has_payload then
    match ctx.resolve a with
    | .error _ => .error .resolveError
    | .ok p => .ok (some p)
  else .ok path?

/-- The `if a.name == "file"` timestamp block of `trans_include`
(lines 612-618). -/
def incStamp (ctx : IncCtx) (a : Action) (path? : Option String) :
    Except ExnKind Action :=
  if a.name = "file" then
    match lookupAttr a.attrs "path" with
    | none => .error .keyError
    | some p =>
      match incTsScan ctx (basenameOf p) path? ctx.timestamp_files with
      | .error e => .error e
      | .ok none => .ok a
      | .ok (some ts) => .ok { a with attrs := setAttr "timestamp" ts a.attrs }
  else .ok a

/-- The `for a in m.gen_actions()` loop of `trans_include` (lines
604-632), accumulating the transaction trace and the reported
rejections; after the loop the exit code is `EXIT_PARTIAL` iff
`invalid_action` was set. -/
def incLoop (ctx : IncCtx) :
    List Action → Option String → Bool →
    List TxEvent × List String × IncResult
  | [], _, invalid =>
    ([], [], .ret (if invalid then EXIT_PARTIAL else EXIT_OK))
  | a :: rest, path?, invalid =>
    match setFmriTest a with
    | .error e => ([], [], .exn e)
    | .ok true => incLoop ctx rest path? invalid
    | .ok false =>
      match incResolve ctx a path? with
      | .error e => ([], [], .exn e)
      | .ok path2 =>
        match incStamp ctx a path2 with
        | .error e => ([], [], .exn e)
        | .ok a2 =>
          if a2.name ∈ nopub_actions then
            let r := incLoop ctx rest path2 true
            (r.1, ("invalid action for publication: " ++ a2.name) :: r.2.1, r.2.2)
          else
            let r := incLoop ctx rest path2 invalid
            (TxEvent.add a2 :: r.1, r.2.1, r.2.2)

/-- `trans_include` from the parsed manifest's action list on. -/
def trans_include_model (ctx : IncCtx) (actions : List Action) :
    List TxEvent × List String × IncResult :=
  incLoop ctx actions none false

/-! ## trans_publish (`publish.py` lines 357-528)

The single-step publish cycle after manifest parsing: FMRI validation
(lines 447-465), `t.open()` (line 469), the action loop (lines
485-523) and the final commit (lines 524-528).  `t.add` failures are
an oracle (`addFails`); `pkg.actions.set_action_data` is an oracle
returning either a filesystem path or a bundle-sourced payload (only a
`str` path can receive a timestamp, lines 511-514).  The disallowed-
action branch (lines 500-506) evaluates the undefined identifier
`action` while formatting its error message — the loop variable is
`a` — so reaching it raises `NameError` before the `t.close` and
`return EXIT_OOPS` statements that follow it can run. -/

/-- The value `set_action_data(...)[0]` takes: a concrete filesystem
path string, or a non-`str` payload source from a bundle. -/
inductive ResolvedPath where
  | fsPath (p : String)
  | bundlePath
deriving DecidableEq, Repr

structure PubCtx where
  fnmatchFn : String → String → Bool
  timestamp_files : List String
  resolve : Action → Except Unit ResolvedPath
  mtime : String → Nat
  addFails : Action → Bool
  closeState : Option String
  closeFmri : Option String

/-- Outcome of `trans_publish`: a normal return reporting the close
results, an error return code, or an escaping exception. -/
inductive PubResult where
  | ok (pkg_state pkg_fmri : Option String)
  | err (code : Nat)
  | exn (e : ExnKind)
deriving DecidableEq, Repr

/-- The `if/elif` chain of `trans_publish` lines 490-506 for a
non-`signature` action: skip identity `set` actions; strip derived
attributes and resolve the payload for payload-bearing actions;
disallowed names reach the `NameError` described above.  Returns
`none` for `continue`, else the action to keep processing and the
updated `path` local. -/
def pubChain (ctx : PubCtx) (a : Action) (path? : Option ResolvedPath) :
    Except ExnKind (Option (Action × Option ResolvedPath)) :=
  match setFmriTest a with
  | .error e => .error e
  | .ok true => .ok none
  | .ok false =>
    if a.has_payload then
      let a2 := { a with attrs := stripAttrsApply a.attrs }
      match ctx.resolve a2 with
      | .error _ => .error .resolveError
      | .ok p => .ok (some (a2, some p))
    else if a.name ∈ nopub_actions then .error .nameError
    else .ok (some (a, path?))

/-- The timestamp pattern scan of `trans_publish` lines 509-517: the
first fnmatch hit with a `str` path yields the mtime timestamp; a hit
whose payload came from a bundle `continue`s to the next pattern; a
hit with `path` never assigned is a `NameError`. -/
def pubTsScan (ctx : PubCtx) (basename : String) (path? : Option ResolvedPath) :
    List String → Except ExnKind (Option String)
  | [] => .ok none
  | p :: ps =>
    if ctx.fnmatchFn basename p then
      match path? with
      | none => .error .nameError
      | some .bundlePath => pubTsScan ctx basename path? ps
      | some (.fsPath s) => .ok (some (timeToTimestamp (ctx.mtime s)))
    else pubTsScan ctx basename path? ps

/-- The `if a.name == "file"` timestamp block (lines 507-517). -/
def pubTsStep (ctx : PubCtx) (a : Action) (path? : Option ResolvedPath) :
    Except ExnKind Action :=
  if a.name = "file" then
    match lookupAttr a.attrs "path" with
    | none => .error .keyError
    | some p =>
      match pubTsScan ctx (basenameOf p) path? ctx.timestamp_files with
      | .error e => .error e
      | .ok none => .ok a
      | .ok (some ts) => .ok { a with attrs := setAttr "timestamp" ts a.attrs }
  else .ok a

/-- The `for a in m.gen_actions()` loop of `trans_publish` (lines
485-523) plus the final `t.close(abandon=False, ...)` and reporting
(lines 524-528).  A failing `t.add` is caught by the bare `except`:
`t.close(abandon=True)` is issued and the exception re-raised. -/
def pubLoop (ctx : PubCtx) :
    List Action → Option ResolvedPath → List TxEvent × PubResult
  | [], _ =>
    ([TxEvent.close false], .ok ctx.closeState ctx.closeFmri)
  | a :: rest, path? =>
    if a.name = "signature" then pubLoop ctx rest path?
    else
      match pubChain ctx a path? with
      | .error e => ([], .exn e)
      | .ok none => pubLoop ctx rest path?
      | .ok (some (a2, path2)) =>
        match pubTsStep ctx a2 path2 with
        | .error e => ([], .exn e)
        | .ok a3 =>
          if ctx.addFails a3 then
            ([TxEvent.add a3, TxEvent.close true], .exn .addError)
          else
            let r := pubLoop ctx rest path2
            (TxEvent.add a3 :: r.1, r.2)

/-- A parsed package FMRI at the `pkg.fmri.PkgFmri` interface: name
plus optional version component. -/
structure Fmri where
  name : String
  version : Option String
deriving DecidableEq, Repr

/-- `trans_publish` from the parsed manifest on: `fmri?` is the
manifest's `pkg.fmri` attribute parsed by the external `PkgFmri`
(`none` models the `KeyError` of a manifest that does not set it).  A
missing FMRI or a version-less FMRI returns `EXIT_OOPS` before
`t.open()` is called (lines 447-465); otherwise the transaction is
opened and the action loop runs. -/
def trans_publish_model (ctx : PubCtx) (fmri? : Option Fmri)
    (actions : List Action) : List TxEvent × PubResult :=
  match fmri? with
  | none => ([], .err EXIT_OOPS)
  | some f =>
    match f.version with
    | none => ([], .err EXIT_OOPS)
    | some _ =>
      let r := pubLoop ctx actions none
      (TxEvent.openT :: r.1, r.2)

/-! ## Concrete fixtures

Concrete inputs used by witnesses and counterexamples. -/

/-- A structural `unknown` action, the single member of the disallowed
set. -/
def unknownAct : Action :=
  { name := "unknown", attrs := [], hash := "NOHASH", has_payload := false }

/-- A plain `dir` action. -/
def dirAct : Action :=
  { name := "dir", attrs := [("path", "etc")], hash := "NOHASH",
    has_payload := false }

/-- A `file` action carrying a declared `timestamp` attribute. -/
def fileTsAct : Action :=
  { name := "file",
    attrs := [("path", "etc/motd"), ("timestamp", "20130101T000000Z")],
    hash := "NOHASH", has_payload := true }

/-- An fnmatch oracle that matches nothing. -/
def noMatch : String → String → Bool := fun _ _ => false

/-- A versioned package FMRI. -/
def fooFmri : Fmri := { name := "foo", version := some "1.0" }

/-- An include context with no timestamp patterns and trivially
succeeding payload resolution. -/
def incCtx0 : IncCtx :=
  { fnmatchFn := noMatch, timestamp_files := [],
    resolve := fun _ => .ok "/tmp/proto/etc/motd", mtime := fun _ => 0 }

/-- A publish context whose external transaction rejects every `add`. -/
def pubCtxAddFail : PubCtx :=
  { fnmatchFn := noMatch, timestamp_files := [],
    resolve := fun _ => .ok (.fsPath "/tmp/proto/etc/motd"),
    mtime := fun _ => 0, addFails := fun _ => true,
    closeState := some "PUBLISHED", closeFmri := some "foo@1.0" }

/-- A publish context whose external calls all succeed. -/
def pubCtx0 : PubCtx :=
  { fnmatchFn := noMatch, timestamp_files := [],
    resolve := fun _ => .ok (.fsPath "/tmp/proto/etc/motd"),
    mtime := fun _ => 0, addFails := fun _ => false,
    closeState := some "PUBLISHED", closeFmri := some "foo@1.0" }

/-! ## Helper lemmas -/

theorem foldl_popAttr_eq_filter (ks : List String) (m : Attrs) :
    ks.foldl (fun acc k => popAttr k acc) m =
      m.filter (fun kv => !(ks.contains kv.1)) := by
  induction ks generalizing m with
  | nil => simp
  | cons k ks ih =>
    rw [List.foldl_cons, ih (popAttr k m)]
    simp only [popAttr, List.filter_filter]
    apply List.filter_congr
    intro kv _
    by_cases h : kv.1 = k <;> simp [h]

theorem stripAttrsApply_eq_filter (m : Attrs) :
    stripAttrsApply m = m.filter (fun kv => !(strip_attrs.contains kv.1)) :=
  foldl_popAttr_eq_filter strip_attrs m

theorem lookupAttr_popAttr (j k : String) (m : Attrs) :
    lookupAttr (popAttr j m) k = if k = j then none else lookupAttr m k := by
  induction m with
  | nil => simp [popAttr, lookupAttr]
  | cons kv rest ih =>
    simp only [popAttr, List.filter_cons]
    by_cases h1 : kv.1 = j <;> by_cases h2 : kv.1 = k <;>
      simp_all [lookupAttr, popAttr]

/-! ## C9 — stripping derived attributes is idempotent -/

/-- C9: for every attribute mapping, applying the derived-attribute
strip step (removing `elfarch`, `elfbits`, `elfhash`,
`pkg.content-hash`, `pkg.csize`, `pkg.size`) twice yields exactly the
same attribute mapping as applying it once. -/
theorem strip_attrs_idempotent (m : Attrs) :
    stripAttrsApply (stripAttrsApply m) = stripAttrsApply m := by
  simp only [stripAttrsApply_eq_filter, List.filter_filter]
  apply List.filter_congr
  intro kv _
  by_cases h : strip_attrs.contains kv.1 <;> simp [h]

/-! ## C10 — `add` rejects disallowed action types before any side
effect -/

/-- C10: for the `add` subcommand, a named action type in the
disallowed set is reported as invalid and returns `EXIT_OOPS` before
the transport is set up or a transaction object is constructed: the
side-effect trace is empty. -/
theorem trans_add_disallowed_no_side_effects (tid : String) (a : Action)
    (h : a.name ∈ nopub_actions) :
    trans_add_model (some tid) (some a) = ([], CmdResult.ret EXIT_OOPS) := by
  simp [trans_add_model, h]

theorem trans_add_disallowed_witness :
    unknownAct.name ∈ nopub_actions ∧
      trans_add_model (some "1234") (some unknownAct) =
        ([], CmdResult.ret EXIT_OOPS) :=
  ⟨by decide,
    trans_add_disallowed_no_side_effects "1234" unknownAct (by decide)⟩

/-! ## C6 — provenance map translation -/

theorem totalLines_cons (name : String) (cnt : Nat) (rest : List SourceSpec) :
    totalLines ((name, cnt) :: rest) = cnt + totalLines rest := by
  simp [totalLines]

theorem findLine_out_of_range (srcs : List SourceSpec) (acc L : Nat)
    (h : L ≤ acc ∨ acc + totalLines srcs < L) :
    findLine L (buildLinecnts acc srcs) = .unknown := by
  induction srcs generalizing acc with
  | nil => simp [buildLinecnts, findLine]
  | cons s rest ih =>
    obtain ⟨name, cnt⟩ := s
    rw [totalLines_cons] at h
    rw [buildLinecnts, findLine]
    have hcond : ¬(acc < L ∧ L ≤ acc + cnt) := by omega
    rw [if_neg hcond]
    exact ih (acc + cnt) (by omega)

theorem findLine_hit (pre : List SourceSpec) (name : String)
    (cnt : Nat) (post : List SourceSpec) (acc ℓ : Nat)
    (h1 : 1 ≤ ℓ) (h2 : ℓ ≤ cnt) :
    findLine (acc + totalLines pre + ℓ)
        (buildLinecnts acc (pre ++ (name, cnt) :: post)) =
      .found name ℓ := by
  induction pre generalizing acc with
  | nil =>
    simp only [List.nil_append, buildLinecnts, findLine]
    have hcond : acc < acc + totalLines [] + ℓ ∧
        acc + totalLines [] + ℓ ≤ acc + cnt := by
      simp [totalLines]; omega
    rw [if_pos hcond]
    have : acc + totalLines [] + ℓ - acc = ℓ := by simp [totalLines]
    rw [this]
  | cons s pre ih =>
    obtain ⟨n0, c0⟩ := s
    rw [List.cons_append, buildLinecnts, findLine, totalLines_cons]
    have hcond : ¬(acc < acc + (c0 + totalLines pre) + ℓ ∧
        acc + (c0 + totalLines pre) + ℓ ≤ acc + c0) := by omega
    rw [if_neg hcond]
    have : acc + (c0 + totalLines pre) + ℓ = (acc + c0) + totalLines pre + ℓ := by
      omega
    rw [this]
    exact ih (acc + c0)

/-- C6: scanning the provenance entries in order attributes every
global line inside some source range to that source at the correct
1-based local line (the global line minus the range start), and any
global line outside all ranges — 0, or past the total — to the unknown
marker instead of failing. -/
theorem provenance_translation :
    (∀ (pre : List SourceSpec) (name : String) (cnt : Nat)
        (post : List SourceSpec) (ℓ : Nat), 1 ≤ ℓ → ℓ ≤ cnt →
        findLine (totalLines pre + ℓ)
            (buildLinecnts 0 (pre ++ (name, cnt) :: post)) =
          .found name ℓ) ∧
      (∀ (srcs : List SourceSpec) (L : Nat), L = 0 ∨ totalLines srcs < L →
        findLine L (buildLinecnts 0 srcs) = .unknown) := by
  constructor
  · intro pre name cnt post ℓ h1 h2
    have := findLine_hit pre name cnt post 0 ℓ h1 h2
    simpa using this
  · intro srcs L h
    exact findLine_out_of_range srcs 0 L (by omega)

theorem provenance_translation_witness :
    (1 ≤ 2 ∧ 2 ≤ 3 ∧
        findLine (totalLines [("a.p5m", 4)] + 2)
            (buildLinecnts 0 ([("a.p5m", 4)] ++ ("b.p5m", 3) :: [])) =
          .found "b.p5m" 2) ∧
      ((9 : Nat) = 0 ∨ totalLines [("a.p5m", 4), ("b.p5m", 3)] < 9) ∧
        findLine 9 (buildLinecnts 0 [("a.p5m", 4), ("b.p5m", 3)]) = .unknown :=
  ⟨⟨by decide, by decide,
      provenance_translation.1 [("a.p5m", 4)] "b.p5m" 3 [] 2
        (by decide) (by decide)⟩,
    ⟨by decide,
      provenance_translation.2 [("a.p5m", 4), ("b.p5m", 3)] 9 (by decide)⟩⟩

/-! ## C8 — bundle visitor: no-op visits and the deduplicated
multiple-bundles warning -/

theorem visitAction_fields (pn : String) (cad : List (String × String))
    (v : SolarisBundleVisitor) (a : Action) :
    (visitAction pn cad v a).warnings = v.warnings ∧
      (visitAction pn cad v a).visited = v.visited ∧
      (visitAction pn cad v a).known_classes = v.known_classes := by
  unfold visitAction
  repeat' split
  all_goals exact ⟨rfl, rfl, rfl⟩

theorem foldl_visitAction_fields (pn : String) (cad : List (String × String))
    (as : List Action) (v : SolarisBundleVisitor) :
    ((as.foldl (visitAction pn cad) v).warnings = v.warnings ∧
      (as.foldl (visitAction pn cad) v).visited = v.visited ∧
      (as.foldl (visitAction pn cad) v).known_classes = v.known_classes) := by
  induction as generalizing v with
  | nil => exact ⟨rfl, rfl, rfl⟩
  | cons a as ih =>
    rw [List.foldl_cons]
    obtain ⟨h1, h2, h3⟩ := ih (visitAction pn cad v a)
    obtain ⟨g1, g2, g3⟩ := visitAction_fields pn cad v a
    exact ⟨h1.trans g1, h2.trans g2, h3.trans g3⟩

theorem foldl_scriptError_fields (pn : String) (ss : List String)
    (v : SolarisBundleVisitor) :
    ((ss.foldl (fun acc s =>
        { acc with errors := setAdd acc.errors (scriptError pn s) }) v).warnings =
          v.warnings ∧
      (ss.foldl (fun acc s =>
        { acc with errors := setAdd acc.errors (scriptError pn s) }) v).visited =
          v.visited) := by
  induction ss generalizing v with
  | nil => exact ⟨rfl, rfl⟩
  | cons s ss ih =>
    rw [List.foldl_cons]
    obtain ⟨h1, h2⟩ :=
      ih { v with errors := setAdd v.errors (scriptError pn s) }
    exact ⟨h1, h2⟩

theorem postfold_warnings (b : Bundle) (v0 : SolarisBundleVisitor) :
    (b.scripts.foldl (fun acc s =>
        { acc with errors := setAdd acc.errors (scriptError b.pkgname s) })
      (b.actions.foldl (visitAction b.pkgname b.class_actions_dir) v0)).warnings =
      v0.warnings := by
  obtain ⟨s1, _⟩ := foldl_scriptError_fields b.pkgname b.scripts
    (b.actions.foldl (visitAction b.pkgname b.class_actions_dir) v0)
  obtain ⟨a1, _, _⟩ := foldl_visitAction_fields b.pkgname b.class_actions_dir
    b.actions v0
  exact s1.trans a1

theorem visit_pkg_fields (v : SolarisBundleVisitor) (b : Bundle)
    (h : b.pkg = true) :
    (v.visit b).warnings =
        (if v.visited then setAdd v.warnings multiBundleWarning
          else v.warnings) ∧
      (v.visit b).visited = true := by
  constructor
  · by_cases hv : v.visited
    · rw [if_pos hv]
      show (SolarisBundleVisitor.visit v b).warnings = _
      unfold SolarisBundleVisitor.visit
      rw [h, hv]
      exact postfold_warnings b _
    · rw [if_neg hv]
      show (SolarisBundleVisitor.visit v b).warnings = _
      unfold SolarisBundleVisitor.visit
      rw [h]
      have hv0 : v.visited = false := by
        cases hvb : v.visited
        · rfl
        · exact absurd hvb hv
      rw [hv0]
      exact postfold_warnings b _
  · unfold SolarisBundleVisitor.visit
    rw [h]
    rfl

theorem count_setAdd_self (s : List String) (x : String) :
    (setAdd s x).count x = if x ∈ s then s.count x else s.count x + 1 := by
  unfold setAdd
  by_cases h : x ∈ s <;> simp [h]

/-- The running invariant tying visitor state to the number of
identity-carrying bundles visited so far. -/
def WInv (v : SolarisBundleVisitor) (n : Nat) : Prop :=
  v.visited = decide (1 ≤ n) ∧
    v.warnings.count multiBundleWarning = if 2 ≤ n then 1 else 0

theorem WInv_visit (v : SolarisBundleVisitor) (b : Bundle) (n : Nat)
    (h : WInv v n) :
    WInv (v.visit b) (n + if b.pkg then 1 else 0) := by
  obtain ⟨h1, h2⟩ := h
  by_cases hb : b.pkg = true
  · obtain ⟨w1, w2⟩ := visit_pkg_fields v b hb
    constructor
    · rw [w2, hb]
      simp only [if_true]
      have : 1 ≤ n + 1 := by omega
      simp [this]
    · rw [w1, hb]
      simp only [if_true]
      by_cases hv : v.visited
      · rw [if_pos hv]
        have hn1 : 1 ≤ n := by
          rw [hv] at h1
          exact of_decide_eq_true h1.symm
        rw [count_setAdd_self]
        by_cases hn2 : 2 ≤ n
        · have hmem : multiBundleWarning ∈ v.warnings := by
            have : 0 < v.warnings.count multiBundleWarning := by
              rw [h2, if_pos hn2]; omega
            exact List.count_pos_iff.mp this
          rw [if_pos hmem, h2, if_pos hn2, if_pos (by omega : 2 ≤ n + 1)]
        · have hcnt : v.warnings.count multiBundleWarning = 0 := by
            rw [h2, if_neg hn2]
          have hmem : multiBundleWarning ∉ v.warnings := by
            intro hm
            have hpos := List.count_pos_iff.mpr hm
            omega
          rw [if_neg hmem, hcnt, if_pos (by omega : 2 ≤ n + 1)]
      · rw [if_neg hv]
        have hn0 : n = 0 := by
          by_contra hc
          have : 1 ≤ n := by omega
          simp [this] at h1
          exact hv h1
        subst hn0
        rw [h2]
        simp
  · have hb0 : b.pkg = false := by
      cases hbv : b.pkg
      · rfl
      · exact absurd hbv hb
    have : v.visit b = v := by
      unfold SolarisBundleVisitor.visit
      rw [hb0]
      rfl
    rw [this, hb0]
    simpa using ⟨h1, h2⟩

theorem WInv_foldl (bs : List Bundle) (v : SolarisBundleVisitor) (n : Nat)
    (h : WInv v n) :
    WInv (bs.foldl SolarisBundleVisitor.visit v) (n + countPkg bs) := by
  induction bs generalizing v n with
  | nil => simpa [countPkg]
  | cons b bs ih =>
    rw [List.foldl_cons]
    have step := WInv_visit v b n h
    have := ih (v.visit b) (n + if b.pkg then 1 else 0) step
    have harith : n + (if b.pkg then 1 else 0) + countPkg bs =
        n + countPkg (b :: bs) := by
      simp only [countPkg, List.filter_cons]
      by_cases hb : b.pkg <;> simp [hb] <;> omega
    rwa [harith] at this

/-- C8: visiting a bundle with no package identity changes neither the
warnings, the errors, nor the visited flag; and across a session the
"multiple SVR4 packages detected" warning is recorded exactly once when
at least two identity-carrying bundles were visited, and not at all
otherwise. -/
theorem bundle_visitor_warning_characterization :
    (∀ (v : SolarisBundleVisitor) (b : Bundle), b.pkg = false →
        v.visit b = v) ∧
      (∀ bs : List Bundle,
        (visitAll bs).warnings.count multiBundleWarning =
          if 2 ≤ countPkg bs then 1 else 0) := by
  constructor
  · intro v b h
    unfold SolarisBundleVisitor.visit
    rw [h]
    rfl
  · intro bs
    have hinit : WInv SolarisBundleVisitor.init 0 := by
      constructor <;> rfl
    have := WInv_foldl bs SolarisBundleVisitor.init 0 hinit
    rw [Nat.zero_add] at this
    exact this.2

theorem bundle_visitor_witness :
    (({ pkg := false, pkgname := "", actions := [],
        class_actions_dir := [], scripts := [] } : Bundle).pkg = false ∧
      SolarisBundleVisitor.init.visit
          { pkg := false, pkgname := "", actions := [],
            class_actions_dir := [], scripts := [] } =
        SolarisBundleVisitor.init) ∧
      (visitAll
          [{ pkg := true, pkgname := "SUNWa", actions := [],
             class_actions_dir := [], scripts := [] },
           { pkg := true, pkgname := "SUNWb", actions := [],
             class_actions_dir := [], scripts := [] }]).warnings.count
          multiBundleWarning =
        if 2 ≤ countPkg
            [{ pkg := true, pkgname := "SUNWa", actions := [],
               class_actions_dir := [], scripts := [] },
             { pkg := true, pkgname := "SUNWb", actions := [],
               class_actions_dir := [], scripts := [] }] then 1 else 0 :=
  ⟨⟨rfl,
      bundle_visitor_warning_characterization.1 SolarisBundleVisitor.init
        { pkg := false, pkgname := "", actions := [],
          class_actions_dir := [], scripts := [] } rfl⟩,
    bundle_visitor_warning_characterization.2 _⟩

/-! ## C7 — import: stop adding after a disallowed action, keep
enumerating, abandon once; exit code -/

theorem foldl_importStep_abandon (ps : List (Action × Bool)) (st : ImportSt) :
    (ps.foldl importStep st).abandon = (st.abandon || ps.any Prod.snd) := by
  induction ps generalizing st with
  | nil => simp
  | cons p ps ih =>
    rw [List.foldl_cons, ih]
    unfold importStep
    by_cases h2 : p.2
    · simp [h2]
    · have h2f : p.2 = false := by
        cases hp : p.2
        · rfl
        · exact absurd hp h2
      by_cases ha : st.abandon <;> simp [h2f, ha]

theorem foldl_importStep_reports (ps : List (Action × Bool)) (st : ImportSt) :
    (ps.foldl importStep st).reports.length =
      st.reports.length + (ps.filter Prod.snd).length := by
  induction ps generalizing st with
  | nil => simp
  | cons p ps ih =>
    rw [List.foldl_cons, ih]
    unfold importStep
    by_cases h2 : p.2
    · simp [h2, List.filter_cons]
      omega
    · have h2f : p.2 = false := by
        cases hp : p.2
        · rfl
        · exact absurd hp h2
      by_cases ha : st.abandon <;> simp [h2f, ha, List.filter_cons]

theorem foldl_importStep_adds (ps : List (Action × Bool)) (st : ImportSt) :
    (ps.foldl importStep st).adds =
      st.adds ++ (if st.abandon then []
        else (ps.takeWhile (fun p => !p.2)).map Prod.fst) := by
  induction ps generalizing st with
  | nil => simp
  | cons p ps ih =>
    rw [List.foldl_cons, ih]
    unfold importStep
    by_cases h2 : p.2
    · have h2t : p.2 = true := h2
      by_cases ha : st.abandon <;>
        simp [h2t, ha, List.takeWhile_cons]
    · have h2f : p.2 = false := by
        cases hp : p.2
        · rfl
        · exact absurd hp h2
      by_cases ha : st.abandon
      · simp [h2f, ha, List.takeWhile_cons]
      · have haf : st.abandon = false := by
          cases hav : st.abandon
          · rfl
          · exact absurd hav ha
        simp [h2f, haf, List.takeWhile_cons]

theorem addedActions_append (tr1 tr2 : List TxEvent) :
    addedActions (tr1 ++ tr2) = addedActions tr1 ++ addedActions tr2 := by
  induction tr1 with
  | nil => simp [addedActions]
  | cons e tr ih =>
    cases e <;> simp [addedActions, List.foldr_cons] <;>
      simpa [addedActions] using ih

theorem addedActions_map_add (as : List Action) :
    addedActions (as.map TxEvent.add) = as := by
  induction as with
  | nil => rfl
  | cons a as ih => simp [addedActions, List.foldr_cons] at ih ⊢; exact ih

theorem countClose_map_add (b : Bool) (as : List Action) :
    countClose b (as.map TxEvent.add) = 0 := by
  induction as with
  | nil => rfl
  | cons a as ih => simpa [countClose, List.filter_cons] using ih

theorem countClose_append (b : Bool) (tr1 tr2 : List TxEvent) :
    countClose b (tr1 ++ tr2) = countClose b tr1 + countClose b tr2 := by
  simp [countClose, List.filter_append]

/-- C7 (amended): once a disallowed action is encountered in an
`import` run, no subsequent action is added (the added actions are
exactly the leading all-allowed prefix), every pair is still enumerated
(one rejection report per disallowed action), and whenever a disallowed
action or a validator error occurred `close(abandon=True)` is issued
exactly once and `close(abandon=False)` never; but the exit code is
`EXIT_OOPS` if and only if a bundle-validator error occurred —
disallowed actions alone return `EXIT_OK`. -/
theorem import_abandon_characterization (pairs : List (Action × Bool))
    (ve : List String) :
    addedActions (trans_import_model pairs ve).1 =
        (pairs.takeWhile (fun p => !p.2)).map Prod.fst ∧
      (trans_import_model pairs ve).2.1.length =
        (pairs.filter Prod.snd).length ∧
      countClose true (trans_import_model pairs ve).1 =
        (if pairs.any Prod.snd || !ve.isEmpty then 1 else 0) ∧
      countClose false (trans_import_model pairs ve).1 = 0 ∧
      (trans_import_model pairs ve).2.2 =
        (if !ve.isEmpty then EXIT_OOPS else EXIT_OK) := by
  unfold trans_import_model
  simp only []
  refine ⟨?_, ?_, ?_, ?_, ?_⟩
  · rw [addedActions_append, addedActions_map_add, foldl_importStep_adds]
    have : addedActions
        (if (pairs.foldl importStep ⟨[], [], false⟩).abandon || !ve.isEmpty
          then [TxEvent.close true] else []) = [] := by
      split <;> rfl
    rw [this]
    simp
  · rw [foldl_importStep_reports]
    simp
  · rw [countClose_append, countClose_map_add, foldl_importStep_abandon]
    simp only [Bool.false_or, Nat.zero_add]
    by_cases h : (pairs.any Prod.snd || !ve.isEmpty) = true
    · rw [h, if_pos rfl]
      rfl
    · have hf : (pairs.any Prod.snd || !ve.isEmpty) = false := by
        cases hb : (pairs.any Prod.snd || !ve.isEmpty)
        · rfl
        · exact absurd hb h
      rw [hf]
      rfl
  · rw [countClose_append, countClose_map_add, foldl_importStep_abandon]
    simp only [Bool.false_or, Nat.zero_add]
    split <;> rfl
  · trivial

/-- C7 counterexample to the claim as stated: an `import` run whose
only finding is a single disallowed action abandons the transaction
(one `close(abandon=True)`) yet returns `EXIT_OK`, not `EXIT_OOPS`. -/
theorem import_disallowed_only_not_oops :
    trans_import_model [(unknownAct, true)] [] =
        ([TxEvent.close true], ["invalid action for publication: unknown"],
          EXIT_OK) ∧
      ¬(trans_import_model [(unknownAct, true)] []).2.2 = EXIT_OOPS := by
  constructor
  · rfl
  · decide

/-! ## C4 — timestamp attribute when no pattern matches -/

/-- C4 (amended): when no timestamp pattern matches the path basename
of a `file`/`dir` action, `gen_actions` removes any carried `timestamp`
attribute on the `import` path (`minimal = false`) exactly as on the
`generate` path (`minimal = true`): the transform is shared, so the
attribute is stripped in both subcommands, not left as declared by
`import`. -/
theorem gen_actions_timestamp_stripped (fn : String → String → Bool)
    (pats : List String) (minimal : Bool) (a : Action) (path : String)
    (hname : a.name = "file" ∨ a.name = "dir")
    (hpath : lookupAttr a.attrs "path" = some path)
    (hmatch : matchesAny fn pats (basenameOf path) = false) :
    ∃ a2, genActionTransform fn pats minimal a = some a2 ∧
      lookupAttr a2.attrs "timestamp" = none := by
  unfold genActionTransform
  rw [if_pos hname, hpath]
  simp only [hmatch, Bool.false_eq_true, if_false]
  refine ⟨_, rfl, ?_⟩
  by_cases hm : minimal
  · simp [hm, lookupAttr_popAttr]
  · simp [hm, lookupAttr_popAttr]

theorem gen_actions_timestamp_stripped_witness :
    (fileTsAct.name = "file" ∨ fileTsAct.name = "dir") ∧
      lookupAttr fileTsAct.attrs "path" = some "etc/motd" ∧
      matchesAny noMatch [] (basenameOf "etc/motd") = false ∧
      ∃ a2, genActionTransform noMatch [] false fileTsAct = some a2 ∧
        lookupAttr a2.attrs "timestamp" = none :=
  ⟨Or.inl rfl, rfl, rfl,
    gen_actions_timestamp_stripped noMatch [] false fileTsAct
      "etc/motd" (Or.inl rfl) rfl rfl⟩

/-- C4 counterexample to the claim as stated: on the `import` path
(`minimal = false`) a `file` action carrying a declared timestamp whose
basename matches no pattern does NOT keep the timestamp — the
attribute is removed, exactly as on the `generate` path. -/
theorem import_timestamp_not_left_declared :
    (genActionTransform noMatch [] false fileTsAct).map
        (fun a => lookupAttr a.attrs "timestamp") = some none ∧
      ¬((genActionTransform noMatch [] false fileTsAct).map
          (fun a => lookupAttr a.attrs "timestamp") =
        some (some "20130101T000000Z")) := by
  constructor
  · rfl
  · decide

/-! ## C5 — publish fails before opening when the FMRI is missing or
version-less -/

/-- C5: a manifest that does not set `pkg.fmri`, or whose `pkg.fmri`
lacks a version component, makes `publish` return `EXIT_OOPS` with an
empty transaction trace — in particular no `open` call is ever issued
to the transaction endpoint. -/
theorem publish_bad_fmri_no_open (ctx : PubCtx) (fmri? : Option Fmri)
    (actions : List Action)
    (h : fmri? = none ∨ ∃ f, fmri? = some f ∧ f.version = none) :
    trans_publish_model ctx fmri? actions = ([], .err EXIT_OOPS) ∧
      TxEvent.openT ∉ (trans_publish_model ctx fmri? actions).1 := by
  rcases h with h | ⟨f, hf, hv⟩
  · subst h
    exact ⟨rfl, by simp [trans_publish_model]⟩
  · subst hf
    obtain ⟨n, v⟩ := f
    have hv2 : v = none := hv
    subst hv2
    exact ⟨rfl, by simp [trans_publish_model]⟩

theorem publish_bad_fmri_no_open_witness :
    ((some { name := "foo", version := none } : Option Fmri) = none ∨
        ∃ f, (some { name := "foo", version := none } : Option Fmri) =
            some f ∧ f.version = none) ∧
      trans_publish_model pubCtx0 (some { name := "foo", version := none })
          [dirAct] = ([], .err EXIT_OOPS) ∧
      TxEvent.openT ∉
        (trans_publish_model pubCtx0 (some { name := "foo", version := none })
          [dirAct]).1 :=
  ⟨Or.inr ⟨{ name := "foo", version := none }, rfl, rfl⟩,
    publish_bad_fmri_no_open pubCtx0 (some { name := "foo", version := none })
      [dirAct] (Or.inr ⟨{ name := "foo", version := none }, rfl, rfl⟩)⟩

/-! ## C2 — publish on a disallowed action: what the code actually does

`publish.py` lines 500-506 intend to report the invalid action, close
the transaction with `abandon=True` and return `EXIT_OOPS`, but the
`error(...)` call formats the undefined name `action` (the loop
variable is `a`), so reaching the branch raises `NameError` instead:
the `t.close(abandon=True)` and `return EXIT_OOPS` lines after it are
dead.  The exception propagates out of `trans_publish` (the generic
handler of the `__main__` block turns it into `EXIT_FATAL`), and the
open transaction observes no `close` call at all. -/

/-- C2 (divergence witness): publishing a manifest with a versioned
FMRI whose first action is disallowed (`unknown`) raises `NameError`
with the transaction left open: the trace holds the `open` call only —
no `close(abandon=True)`, no adds of the remaining actions — and the
result is the escaped exception rather than `EXIT_OOPS`. -/
theorem publish_disallowed_raises_nameError :
    trans_publish_model pubCtx0 (some fooFmri) [unknownAct, dirAct] =
        ([TxEvent.openT], .exn .nameError) ∧
      countClose true
          (trans_publish_model pubCtx0 (some fooFmri) [unknownAct, dirAct]).1 =
        0 ∧
      addedActions
          (trans_publish_model pubCtx0 (some fooFmri) [unknownAct, dirAct]).1 =
        [] ∧
      ¬(trans_publish_model pubCtx0 (some fooFmri) [unknownAct, dirAct]).2 =
        .err EXIT_OOPS := by
  refine ⟨rfl, rfl, rfl, ?_⟩
  decide

/-! ## C1 — publish: a failing add abandons the transaction exactly
once -/

theorem setFmriTest_no_addError (a : Action) :
    setFmriTest a ≠ Except.error ExnKind.addError := by
  unfold setFmriTest
  repeat' split
  all_goals simp

theorem pubChain_no_addError (ctx : PubCtx) (a : Action)
    (p : Option ResolvedPath) :
    pubChain ctx a p ≠ Except.error ExnKind.addError := by
  unfold pubChain
  cases hst : setFmriTest a with
  | error e =>
    simp only [hst]
    intro hcontra
    injection hcontra with he
    subst he
    exact setFmriTest_no_addError a hst
  | ok b =>
    simp only [hst]
    cases b
    · repeat' split
      all_goals simp_all
    · simp

theorem pubTsScan_no_addError (ctx : PubCtx) (basename : String)
    (p? : Option ResolvedPath) (ps : List String) :
    pubTsScan ctx basename p? ps ≠ Except.error ExnKind.addError := by
  induction ps with
  | nil => simp [pubTsScan]
  | cons p ps ih =>
    unfold pubTsScan
    repeat' split
    all_goals simp_all

theorem pubTsStep_no_addError (ctx : PubCtx) (a : Action)
    (p? : Option ResolvedPath) :
    pubTsStep ctx a p? ≠ Except.error ExnKind.addError := by
  unfold pubTsStep
  repeat' split
  all_goals try simp
  all_goals
    first
    | (rename_i e hscan
       intro hcontra
       subst hcontra
       exact pubTsScan_no_addError _ _ _ _ hscan)

theorem countClose_cons_add (b : Bool) (a : Action) (tr : List TxEvent) :
    countClose b (TxEvent.add a :: tr) = countClose b tr := by
  simp [countClose, List.filter_cons]

theorem pubLoop_addError (ctx : PubCtx) (as : List Action)
    (p? : Option ResolvedPath)
    (h : (pubLoop ctx as p?).2 = .exn .addError) :
    ∃ tr0, (pubLoop ctx as p?).1 = tr0 ++ [TxEvent.close true] ∧
      countClose true tr0 = 0 ∧ countClose false tr0 = 0 := by
  induction as generalizing p? with
  | nil => simp [pubLoop] at h
  | cons a rest ih =>
    rw [pubLoop] at h ⊢
    by_cases hsig : a.name = "signature"
    · rw [if_pos hsig] at h ⊢
      exact ih p? h
    · rw [if_neg hsig] at h ⊢
      cases hch : pubChain ctx a p? with
      | error e =>
        simp only [hch] at h
        have he : e = .addError := by simp_all
        subst he
        exact absurd hch (pubChain_no_addError ctx a p?)
      | ok o =>
        cases o with
        | none =>
          simp only [hch] at h ⊢
          exact ih p? h
        | some pr =>
          obtain ⟨a2, p2⟩ := pr
          simp only [hch] at h ⊢
          cases hts : pubTsStep ctx a2 p2 with
          | error e =>
            simp only [hts] at h
            have he : e = .addError := by simp_all
            subst he
            exact absurd hts (pubTsStep_no_addError ctx a2 p2)
          | ok a3 =>
            simp only [hts] at h ⊢
            by_cases haf : ctx.addFails a3
            · simp only [haf, if_true] at h ⊢
              exact ⟨[TxEvent.add a3], rfl, rfl, rfl⟩
            · have haf2 : ctx.addFails a3 = false := by
                cases hv : ctx.addFails a3
                · rfl
                · exact absurd hv haf
              simp only [haf2, Bool.false_eq_true, if_false] at h ⊢
              have h2 : (pubLoop ctx rest p2).2 = .exn .addError := h
              obtain ⟨tr0, h1, hc1, hc2⟩ := ih p2 h2
              refine ⟨TxEvent.add a3 :: tr0, ?_, ?_, ?_⟩
              · show TxEvent.add a3 :: (pubLoop ctx rest p2).1 =
                  (TxEvent.add a3 :: tr0) ++ [TxEvent.close true]
                rw [h1]
                rfl
              · rw [countClose_cons_add]
                exact hc1
              · rw [countClose_cons_add]
                exact hc2

/-- C1: whenever `publish` propagates an add failure (`t.add` raised),
the external transaction observed `close(abandon=True)` exactly once —
as the final transaction call — never observed `close(abandon=False)`,
and no package state or identity is reported to the invoker. -/
theorem publish_add_failure_abandons (ctx : PubCtx) (fmri? : Option Fmri)
    (actions : List Action)
    (h : (trans_publish_model ctx fmri? actions).2 = .exn .addError) :
    countClose true (trans_publish_model ctx fmri? actions).1 = 1 ∧
      countClose false (trans_publish_model ctx fmri? actions).1 = 0 ∧
      (∃ tr0, (trans_publish_model ctx fmri? actions).1 =
          tr0 ++ [TxEvent.close true] ∧ countClose true tr0 = 0) ∧
      ∀ s f, (trans_publish_model ctx fmri? actions).2 ≠ PubResult.ok s f := by
  cases fmri? with
  | none => simp [trans_publish_model] at h
  | some f =>
    cases hv : f.version with
    | none =>
      obtain ⟨n, v⟩ := f
      have hv2 : v = none := hv
      subst hv2
      simp [trans_publish_model] at h
    | some ver =>
      obtain ⟨n, v⟩ := f
      have hv2 : v = some ver := hv
      subst hv2
      have h2 : (pubLoop ctx actions none).2 = .exn .addError := h
      obtain ⟨tr0, h1, hc1, hc2⟩ := pubLoop_addError ctx actions none h2
      have htr : (trans_publish_model ctx
          (some { name := n, version := some ver }) actions).1 =
          TxEvent.openT :: (pubLoop ctx actions none).1 := rfl
      refine ⟨?_, ?_, ?_, ?_⟩
      · rw [htr, h1]
        show countClose true ((TxEvent.openT :: tr0) ++ [TxEvent.close true]) = 1
        rw [countClose_append]
        have : countClose true (TxEvent.openT :: tr0) = countClose true tr0 := by
          simp [countClose, List.filter_cons]
        rw [this, hc1]
        rfl
      · rw [htr, h1]
        show countClose false ((TxEvent.openT :: tr0) ++ [TxEvent.close true]) = 0
        rw [countClose_append]
        have : countClose false (TxEvent.openT :: tr0) = countClose false tr0 := by
          simp [countClose, List.filter_cons]
        rw [this, hc2]
        rfl
      · refine ⟨TxEvent.openT :: tr0, ?_, ?_⟩
        · rw [htr, h1]
          rfl
        · have : countClose true (TxEvent.openT :: tr0) = countClose true tr0 := by
            simp [countClose, List.filter_cons]
          rw [this, hc1]
      · intro s fo hcontra
        rw [h] at hcontra
        exact PubResult.noConfusion hcontra

theorem publish_add_failure_witness :
    (trans_publish_model pubCtxAddFail (some fooFmri) [dirAct]).2 =
        .exn .addError ∧
      countClose true
          (trans_publish_model pubCtxAddFail (some fooFmri) [dirAct]).1 = 1 ∧
      countClose false
          (trans_publish_model pubCtxAddFail (some fooFmri) [dirAct]).1 = 0 :=
  ⟨rfl,
    (publish_add_failure_abandons pubCtxAddFail (some fooFmri) [dirAct] rfl).1,
    (publish_add_failure_abandons pubCtxAddFail (some fooFmri) [dirAct] rfl).2.1⟩

/-! ## C3 — include: PARTIAL iff some action was rejected -/

theorem setFmriTest_ok (a : Action) (b : Bool)
    (h : setFmriTest a = .ok b) : isSetFmriB a = b := by
  unfold setFmriTest at h
  unfold isSetFmriB
  by_cases hs : a.name = "set"
  · rw [if_pos hs] at h
    rw [if_pos hs]
    cases hl : lookupAttr a.attrs "name" with
    | none =>
      rw [hl] at h
      exact Except.noConfusion h
    | some n =>
      rw [hl] at h
      injection h
  · rw [if_neg hs] at h
    have hb : b = false := (Except.ok.inj h).symm
    subst hb
    rw [if_neg hs]

theorem isSetFmriB_not_nopub (a : Action) (h : isSetFmriB a = true) :
    decide (a.name ∈ nopub_actions) = false := by
  unfold isSetFmriB at h
  by_cases hs : a.name = "set"
  · rw [hs]
    decide
  · rw [if_neg hs] at h
    exact Bool.noConfusion h

theorem incStamp_name (ctx : IncCtx) (a : Action) (p? : Option String)
    (a2 : Action) (h : incStamp ctx a p? = .ok a2) : a2.name = a.name := by
  unfold incStamp at h
  repeat' split at h
  all_goals first
    | exact Except.noConfusion h
    | (injection h with h2
       subst h2
       rfl)

/-- Complete characterization of the `trans_include` loop on runs that
return normally: the rejection reports are exactly one per disallowed
action in order, the exit code is `EXIT_PARTIAL` exactly when
`invalid_action` was (or becomes) set, and the number of `add` calls is
the number of non-skipped, non-disallowed actions — processing never
stops at a rejection. -/
theorem incLoop_char (ctx : IncCtx) (as : List Action) :
    ∀ (p? : Option String) (invalid : Bool) (tr : List TxEvent)
      (rep : List String) (code : Nat),
    incLoop ctx as p? invalid = (tr, rep, .ret code) →
    rep = (as.filter (fun x => decide (x.name ∈ nopub_actions))).map
        (fun x => "invalid action for publication: " ++ x.name) ∧
      code = (if invalid || as.any (fun x => decide (x.name ∈ nopub_actions))
          then EXIT_PARTIAL else EXIT_OK) ∧
      (addedActions tr).length =
        (as.filter (fun x => !(isSetFmriB x) &&
            !(decide (x.name ∈ nopub_actions)))).length := by
  induction as with
  | nil =>
    intro p? invalid tr rep code h
    rw [incLoop] at h
    simp only [Prod.mk.injEq] at h
    obtain ⟨h1, h2, h3⟩ := h
    subst h1
    subst h2
    have hc : (if invalid then EXIT_PARTIAL else EXIT_OK) = code :=
      IncResult.ret.inj h3
    subst hc
    simp [addedActions]
  | cons a rest ih =>
    intro p? invalid tr rep code h
    rw [incLoop] at h
    cases hst : setFmriTest a with
    | error e =>
      simp [hst] at h
    | ok b =>
      cases b with
      | true =>
        simp only [hst] at h
        obtain ⟨h1, h2, h3⟩ := ih p? invalid tr rep code h
        have hsf : isSetFmriB a = true := setFmriTest_ok a true hst
        have hnp : decide (a.name ∈ nopub_actions) = false :=
          isSetFmriB_not_nopub a hsf
        refine ⟨?_, ?_, ?_⟩
        · rw [List.filter_cons, hnp]
          exact h1
        · rw [List.any_cons, hnp]
          simpa using h2
        · rw [List.filter_cons, hsf]
          simpa using h3
      | false =>
        simp only [hst] at h
        cases hres : incResolve ctx a p? with
        | error e => simp [hres] at h
        | ok p2 =>
          simp only [hres] at h
          cases hstamp : incStamp ctx a p2 with
          | error e => simp [hstamp] at h
          | ok a2 =>
            simp only [hstamp] at h
            have hname : a2.name = a.name := incStamp_name ctx a p2 a2 hstamp
            have hsf : isSetFmriB a = false := setFmriTest_ok a false hst
            by_cases hnp : a2.name ∈ nopub_actions
            · rw [if_pos hnp] at h
              simp only [Prod.mk.injEq] at h
              obtain ⟨h1, h2, h3⟩ := h
              have heq : incLoop ctx rest p2 true =
                  ((incLoop ctx rest p2 true).1,
                    (incLoop ctx rest p2 true).2.1, .ret code) := by
                rw [← h3]
              obtain ⟨g1, g2, g3⟩ := ih p2 true (incLoop ctx rest p2 true).1
                (incLoop ctx rest p2 true).2.1 code heq
              have hnpa : decide (a.name ∈ nopub_actions) = true := by
                rw [← hname]
                exact decide_eq_true hnp
              refine ⟨?_, ?_, ?_⟩
              · rw [List.filter_cons, hnpa]
                simp only [if_true]
                rw [← h2, g1, hname, List.map_cons]
              · rw [List.any_cons, hnpa]
                rw [g2]
                simp
              · rw [List.filter_cons, hnpa]
                simp only [Bool.not_true, Bool.and_false,
                  Bool.false_eq_true, if_false]
                rw [← h1]
                exact g3
            · rw [if_neg hnp] at h
              simp only [Prod.mk.injEq] at h
              obtain ⟨h1, h2, h3⟩ := h
              have heq : incLoop ctx rest p2 invalid =
                  ((incLoop ctx rest p2 invalid).1,
                    (incLoop ctx rest p2 invalid).2.1, .ret code) := by
                rw [← h3]
              obtain ⟨g1, g2, g3⟩ := ih p2 invalid
                (incLoop ctx rest p2 invalid).1
                (incLoop ctx rest p2 invalid).2.1 code heq
              have hnpa : decide (a.name ∈ nopub_actions) = false := by
                rw [← hname]
                exact decide_eq_false hnp
              refine ⟨?_, ?_, ?_⟩
              · rw [List.filter_cons, hnpa]
                simp only [Bool.false_eq_true, if_false]
                rw [← h2]
                exact g1
              · rw [List.any_cons, hnpa]
                rw [g2]
                simp
              · rw [List.filter_cons, hnpa, hsf]
                simp only [Bool.not_false, Bool.and_true, if_true]
                rw [← h1]
                have : addedActions (TxEvent.add a2 ::
                    (incLoop ctx rest p2 invalid).1) =
                    a2 :: addedActions (incLoop ctx rest p2 invalid).1 := rfl
                rw [this]
                simp only [List.length_cons, g3]

/-- C3 (amended): the `include` subcommand returns `EXIT_PARTIAL` if
and only if at least one action was rejected for publication — even
when no other action was successfully added; rejected actions are
reported (one report per disallowed action) and the pipeline keeps
processing the remaining actions, adding every non-skipped allowed
action. -/
theorem include_partial_iff_rejected (ctx : IncCtx) (actions : List Action)
    (tr : List TxEvent) (rep : List String) (code : Nat)
    (h : trans_include_model ctx actions = (tr, rep, .ret code)) :
    (code = EXIT_PARTIAL ↔ rep ≠ []) ∧
      (rep = [] → code = EXIT_OK) ∧
      rep = (actions.filter (fun x => decide (x.name ∈ nopub_actions))).map
          (fun x => "invalid action for publication: " ++ x.name) ∧
      (addedActions tr).length =
        (actions.filter (fun x => !(isSetFmriB x) &&
            !(decide (x.name ∈ nopub_actions)))).length := by
  obtain ⟨h1, h2, h3⟩ := incLoop_char ctx actions none false tr rep code h
  rw [Bool.false_or] at h2
  refine ⟨?_, ?_, h1, h3⟩
  · constructor
    · intro hc hrep
      rw [hrep] at h1
      have hany : actions.any (fun x => decide (x.name ∈ nopub_actions)) =
          false := by
        by_contra hcon
        have : actions.any (fun x => decide (x.name ∈ nopub_actions)) =
            true := by
          cases hv : actions.any (fun x => decide (x.name ∈ nopub_actions))
          · exact absurd hv hcon
          · rfl
        obtain ⟨x, hx1, hx2⟩ := List.any_eq_true.mp this
        have : x ∈ actions.filter (fun x => decide (x.name ∈ nopub_actions)) :=
          List.mem_filter.mpr ⟨hx1, hx2⟩
        rw [show actions.filter (fun x => decide (x.name ∈ nopub_actions)) =
            [] from by
          cases hf : actions.filter (fun x => decide (x.name ∈ nopub_actions))
          · rfl
          · rw [hf] at h1
            exact List.noConfusion h1.symm] at this
        exact List.not_mem_nil x this
      rw [hany] at h2
      rw [h2] at hc
      exact absurd hc (by decide)
    · intro hrep
      by_cases hany : actions.any (fun x => decide (x.name ∈ nopub_actions))
      · rw [hany, if_pos rfl] at h2
        exact h2
      · have hanyf : actions.any (fun x => decide (x.name ∈ nopub_actions)) =
            false := by
          cases hv : actions.any (fun x => decide (x.name ∈ nopub_actions))
          · rfl
          · exact absurd hv hany
        have hfilt : actions.filter (fun x => decide (x.name ∈ nopub_actions)) =
            [] := by
          rw [List.filter_eq_nil]
          intro x hx
          intro hdx
          exact (List.any_eq_true.not.mp (by rw [hanyf]; simp)) ⟨x, hx, hdx⟩
        rw [hfilt] at h1
        simp at h1
        exact absurd h1 hrep
  · intro hrep
    have hanyf : actions.any (fun x => decide (x.name ∈ nopub_actions)) =
        false := by
      by_contra hcon
      have hany : actions.any (fun x => decide (x.name ∈ nopub_actions)) =
          true := by
        cases hv : actions.any (fun x => decide (x.name ∈ nopub_actions))
        · exact absurd hv hcon
        · rfl
      obtain ⟨x, hx1, hx2⟩ := List.any_eq_true.mp hany
      have hmem : x ∈ actions.filter
          (fun x => decide (x.name ∈ nopub_actions)) :=
        List.mem_filter.mpr ⟨hx1, hx2⟩
      rw [hrep] at h1
      have hfilt : actions.filter (fun x => decide (x.name ∈ nopub_actions)) =
          [] := by
        cases hf : actions.filter (fun x => decide (x.name ∈ nopub_actions))
        · rfl
        · rw [hf] at h1
          exact List.noConfusion h1.symm
      rw [hfilt] at hmem
      exact List.not_mem_nil x hmem
    rw [hanyf] at h2
    simpa using h2

/-- C3 counterexample to the claim as stated: an `include` run whose
manifest holds a single disallowed (`unknown`) action returns
`EXIT_PARTIAL` although no other action was successfully added, so
"PARTIAL iff some rejected AND some added" is false on the code. -/
theorem include_partial_without_success :
    (trans_include_model incCtx0 [unknownAct]).2.2 = .ret EXIT_PARTIAL ∧
      addedActions (trans_include_model incCtx0 [unknownAct]).1 = [] ∧
      ¬(((trans_include_model incCtx0 [unknownAct]).2.2 =
            .ret EXIT_PARTIAL) ↔
          ((trans_include_model incCtx0 [unknownAct]).2.1 ≠ [] ∧
            addedActions (trans_include_model incCtx0 [unknownAct]).1 ≠ [])) := by
  refine ⟨rfl, rfl, ?_⟩
  intro hiff
  have h1 : (trans_include_model incCtx0 [unknownAct]).2.2 =
      .ret EXIT_PARTIAL := rfl
  obtain ⟨-, hadd⟩ := hiff.mp h1
  exact hadd rfl

theorem include_partial_iff_rejected_witness :
    trans_include_model incCtx0 [unknownAct, dirAct] =
        ([TxEvent.add dirAct], ["invalid action for publication: unknown"],
          .ret EXIT_PARTIAL) ∧
      ( EXIT_PARTIAL = EXIT_PARTIAL ↔
        (["invalid action for publication: unknown"] : List String) ≠ []) :=
  ⟨rfl,
    (include_partial_iff_rejected incCtx0 [unknownAct, dirAct]
      [TxEvent.add dirAct] ["invalid action for publication: unknown"]
      EXIT_PARTIAL rfl).1⟩

end Pkgsend
